import Mathlib

/-!
# Verification of the oci-wasm capability-descriptor extraction

A shallow embedding of the `oci-wasm` crate (`src/component.rs`,
`src/client.rs`, `src/config.rs`) together with theorems settling the
specification claims about it.

Conventions of the embedding:

* The external `wit_parser::Resolve` graph is modelled as lists indexed by
  arena ids (`Nat`); arena iteration yields `(id, item)` pairs in index
  order, so `find_map (id == wanted)` over an arena is list indexing and
  `find_map (item.name == wanted)` is a first-match scan with a counter.
* `anyhow::Result` becomes `Except String`; attaching a `.context`
  message to a propagated error is modelled as prefixing that message,
  mirroring how the chained error renders.
* The external binary decoder `wit_component::decode` and the external
  registry transport are not implemented here; the functions that consume
  them take the collaborator's already-produced result as an argument.
* `serde_json` values are modelled by a small `Json` inductive covering
  the shapes the crate serializes; derived (de)serialization of the config
  structs is written out field by field, `camelCase` included.
-/

/-- Constant `WASM_MANIFEST_MEDIA_TYPE` from `src/lib.rs`. -/
def WASM_MANIFEST_MEDIA_TYPE : String := "application/vnd.oci.image.manifest.v1+json"

/-- Constant `WASM_MANIFEST_CONFIG_MEDIA_TYPE` from `src/lib.rs`. -/
def WASM_MANIFEST_CONFIG_MEDIA_TYPE : String := "application/vnd.wasm.config.v0+json"

/-- Constant `WASM_LAYER_MEDIA_TYPE` from `src/lib.rs`. -/
def WASM_LAYER_MEDIA_TYPE : String := "application/wasm"

/-- Constant `WASM_ARCHITECTURE` from `src/lib.rs`. -/
def WASM_ARCHITECTURE : String := "wasm"

/-- Constant `MODULE_OS` from `src/lib.rs`. -/
def MODULE_OS : String := "wasip1"

/-- Constant `COMPONENT_OS` from `src/lib.rs`. -/
def COMPONENT_OS : String := "wasip2"

/-- Modelled from the spec: the identity of a `wit_parser` package,
`{namespace, name, optional version}` (spec §3); `ns` stands for the
`namespace` field (a Lean keyword), and the version is carried in its
semantic-version textual form (e.g. `"0.2.0"`). -/
structure PackageName where
  ns : String
  name : String
  version : Option String
deriving DecidableEq, Repr

/-- Modelled from the spec: a `wit_parser` interface node — a local name
(absent for anonymous interfaces) and the arena id of its owning package
(spec §3: an interface belongs to a package; §4.1 tolerates a missing
owner). -/
structure InterfaceDef where
  name : Option String
  package : Option Nat
deriving DecidableEq, Repr

/-- The two-variant key of a world's export/import maps:
`wit_parser::WorldKey`. -/
inductive WorldKey where
  | interface (id : Nat)
  | name (s : String)
deriving DecidableEq, Repr

/-- Modelled from the spec: a `wit_parser` world — its name and the keys
of its `exports` and `imports` maps, in map order (only the keys are
consumed by this crate). -/
structure World where
  name : String
  exports : List WorldKey
  imports : List WorldKey
deriving DecidableEq, Repr

/-- Modelled from the spec: the interface-resolution graph
(`wit_parser::Resolve`) — arenas of worlds, interfaces and packages,
addressed by index (spec §3, §9). -/
structure Resolve where
  worlds : List World
  interfaces : List InterfaceDef
  packages : List PackageName
deriving DecidableEq, Repr

/-- Rendering of an optional package version as the suffix appended to a
qualified name: `"@{version}"` when present, nothing otherwise. -/
def versionSuffix : Option String → String
  | some v => "@" ++ v
  | none => ""

/-- Modelled from the spec: `wit_parser::Resolve::id_of`, the canonical
name resolver for an interface id (spec §4.1). A missing interface node,
an anonymous interface, or a missing owning package contributes no name;
otherwise the name is `"{namespace}:{package-name}/{interface-local-name}"`
with `"@{version}"` appended when the package has a version. -/
def Resolve.id_of (r : Resolve) (id : Nat) : Option String :=
  match r.interfaces[id]? with
  | none => none
  | some i =>
    match i.name with
    | none => none
    | some iname =>
      match i.package.bind (fun pid => r.packages[pid]?) with
      | none => none
      | some p =>
        some (p.ns ++ ":" ++ p.name ++ "/" ++ iname ++ versionSuffix p.version)

/-- Structure `Component` from `src/component.rs`: the capability descriptor that is
persisted in the OCI config. -/
structure Component where
  exports : List String
  imports : List String
  target : Option String
deriving DecidableEq, Repr

/-- Function `name_from_key_and_item` from `src/component.rs`: an interface key
resolves through `Resolve::id_of`, a plain-name key is its own name. -/
def name_from_key_and_item (r : Resolve) (key : WorldKey) : Option String :=
  match key with
  | .interface id => r.id_of id
  | .name n => some n

/-- Function `Component::from_world` from `src/component.rs`: look the world up by
id (the arena `find_map` on `id == world_id` is indexing), then collect
the resolvable export and import key names; `target` is `None`. -/
def Component.from_world (r : Resolve) (world_id : Nat) : Except String Component :=
  match r.worlds[world_id]? with
  | none => .error "component world not found"
  | some world =>
    .ok { exports := world.exports.filterMap (name_from_key_and_item r)
          imports := world.imports.filterMap (name_from_key_and_item r)
          target := none }

/-- The outcome of the external decoder `wit_component::decode`: a
component with its designated world, or a binary WIT package with its
designated package (spec §6 decoder boundary). -/
inductive DecodedWasm where
  | component (resolve : Resolve) (world : Nat)
  | witPackage (resolve : Resolve) (package : Nat)
deriving DecidableEq, Repr

/-- The `.context` message `from_raw_component` and `from_raw_wit_package`
attach to a decode failure. -/
def decodeFailMsg (e : String) : String := "failed to decode WIT component: " ++ e

/-- The error `from_raw_component` raises on a package-shaped decode. -/
def wrongShapeComponentMsg : String :=
  "Found a binary wit package, not a component. Please use the from_wit_package or from_raw_wit_package functions"

/-- The error `from_raw_wit_package` raises on a component-shaped decode. -/
def wrongShapePackageMsg : String :=
  "Found a component, not a binary wit package. Please use the from_component or from_raw_component functions"

/-- Function `Component::from_raw_component` from `src/component.rs`, taken from
the point where the external decoder has produced its result: a decode
failure is propagated with context, a package-shaped decode is rejected,
and a component-shaped decode is routed to `from_world`. -/
def Component.from_raw_component (decoded : Except String DecodedWasm) :
    Except String Component :=
  match decoded with
  | .error e => .error (decodeFailMsg e)
  | .ok (.component r world) => Component.from_world r world
  | .ok (.witPackage _ _) => .error wrongShapeComponentMsg

/-- The `find_map` of `from_raw_wit_package` over the world arena: the
first arena id whose world carries the requested name; `i` is the id of
the head of the remaining list. -/
def findWorldIdAux (ws : List World) (world_name : String) (i : Nat) : Option Nat :=
  match ws with
  | [] => none
  | w :: rest =>
    if w.name = world_name then some i else findWorldIdAux rest world_name (i + 1)

/-- The scan `resolve.worlds.iter().find_map(|(id, w)| (w.name == world_name).then_some(id))`
from `src/component.rs`. -/
def findWorldId (r : Resolve) (world_name : String) : Option Nat :=
  findWorldIdAux r.worlds world_name 0

/-- Function `Component::from_raw_wit_package` from `src/component.rs`, taken from
the decoder's result: a decode failure is propagated with context, a
component-shaped decode is rejected, and otherwise the first world whose
name matches is extracted with `from_world`; no world of that name is an
error. -/
def Component.from_raw_wit_package (decoded : Except String DecodedWasm)
    (world_name : String) : Except String Component :=
  match decoded with
  | .error e => .error (decodeFailMsg e)
  | .ok (.witPackage r _) =>
    match findWorldId r world_name with
    | none => .error ("Unable to find matching world for name " ++ world_name)
    | some world => Component.from_world r world
  | .ok (.component _ _) => .error wrongShapePackageMsg

/-- The JSON values the crate's config (de)serialization traffics in,
covering the shapes `serde_json` produces for these structs: null,
strings, arrays and objects (an object is its field list in
serialization order). -/
inductive Json where
  | null
  | str (s : String)
  | arr (xs : List Json)
  | obj (fields : List (String × Json))

/-- Field lookup in an object, as `serde` resolves struct fields by name:
the first binding of the key, in any position. -/
def Json.findField : Json → String → Option Json
  | .obj ((k, v) :: fs), key => if k = key then some v else Json.findField (.obj fs) key
  | _, _ => none

/-- Deserializing a JSON value as a `String`. -/
def Json.asStr : Json → Option String
  | .str s => some s
  | _ => none

/-- Deserializing a JSON value as an `Option<String>` field: `null` is
`None`, a string is `Some`. -/
def Json.asOptStr : Json → Option (Option String)
  | .null => some none
  | .str s => some (some s)
  | _ => none

/-- Deserializing a JSON array's elements as a `Vec<String>`. -/
def strListFromJson : List Json → Option (List String)
  | [] => some []
  | .str s :: rest => (strListFromJson rest).map (s :: ·)
  | _ :: _ => none

/-- Deserializing a JSON value as a `Vec<String>`. -/
def Json.asStrArr : Json → Option (List String)
  | .arr xs => strListFromJson xs
  | _ => none

/-- Serializing a `Vec<String>`. -/
def jsonOfStrList (xs : List String) : Json := .arr (xs.map .str)

/-- Serializing an `Option<String>` field (no `skip_serializing_if`, so
`None` becomes `null`). -/
def jsonOfOptStr : Option String → Json
  | none => .null
  | some s => .str s

/-- The derived `Serialize` of `Component` (`src/component.rs`): field
names as declared, no rename. -/
def Component.toJson (c : Component) : Json :=
  .obj [("exports", jsonOfStrList c.exports),
        ("imports", jsonOfStrList c.imports),
        ("target", jsonOfOptStr c.target)]

/-- The derived `Deserialize` of `Component`: each field read by name. -/
def Component.fromJson (j : Json) : Option Component :=
  match (j.findField "exports").bind Json.asStrArr with
  | none => none
  | some exports =>
    match (j.findField "imports").bind Json.asStrArr with
    | none => none
    | some imports =>
      match (j.findField "target").bind Json.asOptStr with
      | none => none
      | some target => some { exports := exports, imports := imports, target := target }

/-- Structure `WasmConfig` from `src/config.rs`. The `created` timestamp is carried
in its serialized (RFC 3339) textual form, since `chrono` is an external
collaborator; `layer_digests` are the content digests of the layers. -/
structure WasmConfig where
  created : String
  author : Option String
  architecture : String
  os : String
  layer_digests : List String
  component : Option Component
deriving DecidableEq, Repr

/-- Serializing the optional `component` field of `WasmConfig`. -/
def jsonOfOptComponent : Option Component → Json
  | none => .null
  | some c => c.toJson

/-- Deserializing the optional `component` field of `WasmConfig`. -/
def Json.asOptComponent : Json → Option (Option Component)
  | .null => some none
  | j => (Component.fromJson j).map some

/-- The derived `Serialize` of `WasmConfig` (`src/config.rs`):
`rename_all = "camelCase"`, so `layer_digests` serializes as
`layerDigests`; fields in declaration order. -/
def WasmConfig.toJson (c : WasmConfig) : Json :=
  .obj [("created", .str c.created),
        ("author", jsonOfOptStr c.author),
        ("architecture", .str c.architecture),
        ("os", .str c.os),
        ("layerDigests", jsonOfStrList c.layer_digests),
        ("component", jsonOfOptComponent c.component)]

/-- The derived `Deserialize` of `WasmConfig`: each (camelCase) field
read by name. -/
def WasmConfig.fromJson (j : Json) : Option WasmConfig :=
  match (j.findField "created").bind Json.asStr with
  | none => none
  | some created =>
    match (j.findField "author").bind Json.asOptStr with
    | none => none
    | some author =>
      match (j.findField "architecture").bind Json.asStr with
      | none => none
      | some architecture =>
        match (j.findField "os").bind Json.asStr with
        | none => none
        | some os =>
          match (j.findField "layerDigests").bind Json.asStrArr with
          | none => none
          | some layer_digests =>
            match (j.findField "component").bind Json.asOptComponent with
            | none => none
            | some component =>
              some { created := created, author := author,
                     architecture := architecture, os := os,
                     layer_digests := layer_digests, component := component }

/-- Structure `oci_client::client::Config`, the OCI config blob: its payload (kept
in parsed JSON form — byte-level JSON text is the transport's concern),
its media type, and the manifest annotations (`annots` models the
source's annotation map field). -/
structure Config where
  data : Json
  media_type : String
  annots : Option (List (String × String))

/-- Function `ToConfig::to_config for WasmConfig` from `src/config.rs`: serialize
the struct to JSON and wrap it with the fixed WASM config media type and
no annotations (`serde_json::to_vec` cannot fail on these structs, so the
result is always `ok`). -/
def WasmConfig.to_config (c : WasmConfig) : Except String Config :=
  .ok { data := c.toJson, media_type := WASM_MANIFEST_CONFIG_MEDIA_TYPE, annots := none }

/-- Function `TryFrom<Vec<u8>> for WasmConfig` from `src/config.rs`:
`serde_json::from_slice`, on the payload's parsed JSON form; a shape
mismatch is the propagated serde error. -/
def WasmConfig.try_from (j : Json) : Except String WasmConfig :=
  match WasmConfig.fromJson j with
  | some c => .ok c
  | none => .error "failed to deserialize wasm config"

/-- Structure `oci_client::manifest::OciDescriptor`, reduced to the field this
crate inspects. -/
structure OciDescriptor where
  media_type : String
deriving DecidableEq, Repr

/-- Structure `oci_client::manifest::OciImageManifest`, reduced to the fields this
crate inspects: the optional manifest media type, the config descriptor
and the layer descriptors. -/
structure OciImageManifest where
  media_type : Option String
  config : OciDescriptor
  layers : List OciDescriptor
deriving DecidableEq, Repr

/-- Structure `oci_client::client::ImageLayer`, reduced to the fields this crate
inspects. -/
structure ImageLayerData where
  data : List Nat
  media_type : String
deriving DecidableEq, Repr

/-- Structure `oci_client::client::ImageData` as returned by the external
transport's `pull`: the content layers, the digest, the config blob and
the manifest it was served under. -/
structure ImageData where
  layers : List ImageLayerData
  digest : Option String
  config : Config
  manifest : Option OciImageManifest

/-- Function `WasmClient::pull` from `src/client.rs`, taken from the external
client's result: a transport failure is propagated; then the layer count
and the config media type are checked, and the image data is returned
unchanged. -/
def WasmClient.pull (pulled : Except String ImageData) : Except String ImageData :=
  match pulled with
  | .error e => .error e
  | .ok image_data =>
    if image_data.layers.length ≠ 1 then
      .error "Wasm components must have exactly one layer"
    else if image_data.config.media_type ≠ WASM_MANIFEST_CONFIG_MEDIA_TYPE then
      .error ("Wasm components must have a config of type " ++ WASM_MANIFEST_CONFIG_MEDIA_TYPE)
    else .ok image_data

/-- Function `WasmClient::pull_manifest_and_config` from `src/client.rs`, taken
from the external client's result `(manifest, digest, config)`: layer
count, manifest media type (`as_deref().unwrap_or_default()`) and config
media type are checked in that order, and only then is the config blob
parsed as a `WasmConfig`. -/
def WasmClient.pull_manifest_and_config
    (pulled : Except String (OciImageManifest × String × Json)) :
    Except String (OciImageManifest × WasmConfig × String) :=
  match pulled with
  | .error e => .error e
  | .ok (manifest, digest, config) =>
    if manifest.layers.length ≠ 1 then
      .error "Wasm components must have exactly one layer"
    else if manifest.media_type.getD "" ≠ WASM_MANIFEST_MEDIA_TYPE then
      .error ("Wasm components must have a manifest of type " ++ WASM_MANIFEST_MEDIA_TYPE)
    else if manifest.config.media_type ≠ WASM_MANIFEST_CONFIG_MEDIA_TYPE then
      .error ("Wasm components must have a config of type " ++ WASM_MANIFEST_CONFIG_MEDIA_TYPE)
    else
      match WasmConfig.try_from config with
      | .error e => .error e
      | .ok c => .ok (manifest, c, digest)

/-- Any name produced by the canonical resolver for an interface id is
fully qualified: it contains the namespace separator character. -/
theorem colon_mem_id_of (r : Resolve) (i : Nat) (s : String)
    (h : r.id_of i = some s) : ':' ∈ s.data := by
  unfold Resolve.id_of at h
  split at h
  · exact absurd h (by simp)
  split at h
  · exact absurd h (by simp)
  split at h
  · exact absurd h (by simp)
  have hs := ((Option.some.injEq _ _).mp h).symm
  subst hs
  simp [String.data_append, List.mem_append]

/-- C6: a plain-name world key resolves to exactly its own name, for
every graph: the resolver does not consult the graph on that variant. -/
theorem plain_name_key_resolves_to_itself (r : Resolve) (s : String) :
    name_from_key_and_item r (WorldKey.name s) = some s := rfl

/-- C3: `Component::from_world` fails exactly when the world id does not
identify a world node of the graph; when the world exists the extraction
always succeeds, whatever references its keys hold. -/
theorem from_world_error_iff_world_absent (r : Resolve) (world_id : Nat) :
    (∃ e, Component.from_world r world_id = .error e) ↔ r.worlds[world_id]? = none := by
  unfold Component.from_world
  rcases h : r.worlds[world_id]? with _ | w <;> simp

/-- C5: a resolving interface key yields
`"{namespace}:{package-name}/{interface-local-name}"`, with
`"@{version}"` appended exactly when the owning package declares a
version; instantiated on the spec's `wasi:http/incoming-handler`
examples. -/
theorem qualified_name_format (r : Resolve) (id pid : Nat) (iname : String)
    (p : PackageName)
    (hi : r.interfaces[id]? = some { name := some iname, package := some pid })
    (hp : r.packages[pid]? = some p) :
    (∀ v, p.version = some v →
      name_from_key_and_item r (WorldKey.interface id)
        = some (p.ns ++ ":" ++ p.name ++ "/" ++ iname ++ "@" ++ v))
    ∧ (p.version = none →
      name_from_key_and_item r (WorldKey.interface id)
        = some (p.ns ++ ":" ++ p.name ++ "/" ++ iname))
    ∧ (p = { ns := "wasi", name := "http", version := some "0.2.0" } →
        iname = "incoming-handler" →
      name_from_key_and_item r (WorldKey.interface id)
        = some "wasi:http/incoming-handler@0.2.0")
    ∧ (p = { ns := "wasi", name := "http", version := none } →
        iname = "incoming-handler" →
      name_from_key_and_item r (WorldKey.interface id)
        = some "wasi:http/incoming-handler") := by
  have hbase : name_from_key_and_item r (WorldKey.interface id)
      = some (p.ns ++ ":" ++ p.name ++ "/" ++ iname ++ versionSuffix p.version) := by
    simp only [name_from_key_and_item, Resolve.id_of, hi, Option.bind, hp]
  refine ⟨?_, ?_, ?_, ?_⟩
  · intro v hv
    rw [hbase, hv]
    simp [versionSuffix, String.append_assoc]
  · intro hv
    rw [hbase, hv]
    simp [versionSuffix]
  · rintro rfl rfl
    rw [hbase]
    rfl
  · rintro rfl rfl
    rw [hbase]
    rfl

/-- A concrete graph holding `wasi:http` (versioned `0.2.0`) and its
`incoming-handler` interface, used to instantiate the name-format
theorem. -/
def wasiHttpResolve : Resolve :=
  { worlds := [{ name := "proxy",
                 exports := [WorldKey.interface 0],
                 imports := [] }],
    interfaces := [{ name := some "incoming-handler", package := some 0 }],
    packages := [{ ns := "wasi", name := "http", version := some "0.2.0" }] }

/-- Witness for C5: the format theorem applied to the concrete
`wasi:http` graph renders `wasi:http/incoming-handler@0.2.0`. -/
theorem qualified_name_format_witness :
    name_from_key_and_item wasiHttpResolve (WorldKey.interface 0)
      = some "wasi:http/incoming-handler@0.2.0" :=
  (qualified_name_format wasiHttpResolve 0 0 "incoming-handler"
      { ns := "wasi", name := "http", version := some "0.2.0" } rfl rfl).2.2.1 rfl rfl

/-- C4: extraction from an existing world succeeds, and an export key
whose interface reference does not resolve is omitted: with exactly one
resolvable and one unresolvable export key, the export list is exactly
the resolvable name. -/
theorem unresolved_key_omitted (r : Resolve) (wid : Nat) (w : World)
    (hw : r.worlds[wid]? = some w) :
    ∃ c, Component.from_world r wid = .ok c ∧
      ∀ k₁ k₂ n₁, w.exports = [k₁, k₂] →
        name_from_key_and_item r k₁ = some n₁ →
        name_from_key_and_item r k₂ = none →
        c.exports = [n₁] := by
  refine ⟨{ exports := w.exports.filterMap (name_from_key_and_item r),
            imports := w.imports.filterMap (name_from_key_and_item r),
            target := none }, ?_, ?_⟩
  · simp [Component.from_world, hw]
  · rintro k₁ k₂ n₁ hexp h₁ h₂
    simp [hexp, List.filterMap, h₁, h₂]

/-- A graph whose world has one resolvable export key and one interface
reference pointing at a nonexistent interface node. -/
def danglingRefResolve : Resolve :=
  { worlds := [{ name := "w",
                 exports := [WorldKey.interface 0, WorldKey.interface 7],
                 imports := [] }],
    interfaces := [{ name := some "good", package := some 0 }],
    packages := [{ ns := "a", name := "b", version := none }] }

/-- Witness for C4: on the dangling-reference graph, extraction succeeds
and yields only the resolvable name. -/
theorem unresolved_key_omitted_witness :
    ∃ c, Component.from_world danglingRefResolve 0 = .ok c ∧
      ∀ k₁ k₂ n₁,
        ([WorldKey.interface 0, WorldKey.interface 7] : List WorldKey) = [k₁, k₂] →
        name_from_key_and_item danglingRefResolve k₁ = some n₁ →
        name_from_key_and_item danglingRefResolve k₂ = none →
        ([WorldKey.interface 0, WorldKey.interface 7] : List WorldKey).length = 2 →
        c.exports = [n₁] := by
  obtain ⟨c, hc, hprop⟩ := unresolved_key_omitted danglingRefResolve 0
    { name := "w",
      exports := [WorldKey.interface 0, WorldKey.interface 7],
      imports := [] } rfl
  exact ⟨c, hc, fun k₁ k₂ n₁ he h₁ h₂ _ => hprop k₁ k₂ n₁ he h₁ h₂⟩

/-- C7: the two raw entry points reject the wrong decoded shape with
their own fixed messages, propagate a decoder failure with the decode
context, and the wrong-shape messages never coincide with a propagated
decode failure. -/
theorem wrong_shape_error_distinct :
    (∀ r p, Component.from_raw_component (.ok (.witPackage r p))
        = .error wrongShapeComponentMsg)
    ∧ (∀ r w n, Component.from_raw_wit_package (.ok (.component r w)) n
        = .error wrongShapePackageMsg)
    ∧ (∀ e, Component.from_raw_component (.error e) = .error (decodeFailMsg e))
    ∧ (∀ e n, Component.from_raw_wit_package (.error e) n = .error (decodeFailMsg e))
    ∧ (∀ e, decodeFailMsg e ≠ wrongShapeComponentMsg
        ∧ decodeFailMsg e ≠ wrongShapePackageMsg) := by
  refine ⟨fun _ _ => rfl, fun _ _ _ => rfl, fun _ => rfl, fun _ _ => rfl, fun e => ⟨?_, ?_⟩⟩
  · intro h
    have hd := congrArg String.data h
    rw [show decodeFailMsg e = "failed to decode WIT component: " ++ e from rfl,
      String.data_append] at hd
    have hleft : ("failed to decode WIT component: " : String).data
        = 'f' :: "ailed to decode WIT component: ".data := rfl
    have hright : wrongShapeComponentMsg.data
        = 'F' :: "ound a binary wit package, not a component. Please use the from_wit_package or from_raw_wit_package functions".data := rfl
    rw [hleft, hright] at hd
    exact absurd ((List.cons.injEq _ _ _ _).mp hd).1 (by decide)
  · intro h
    have hd := congrArg String.data h
    rw [show decodeFailMsg e = "failed to decode WIT component: " ++ e from rfl,
      String.data_append] at hd
    have hleft : ("failed to decode WIT component: " : String).data
        = 'f' :: "ailed to decode WIT component: ".data := rfl
    have hright : wrongShapePackageMsg.data
        = 'F' :: "ound a component, not a binary wit package. Please use the from_component or from_raw_component functions".data := rfl
    rw [hleft, hright] at hd
    exact absurd ((List.cons.injEq _ _ _ _).mp hd).1 (by decide)

/-- The world-name scan finds nothing exactly when no world carries the
requested name, whatever the starting id. -/
theorem findWorldIdAux_none_iff (ws : List World) (n : String) :
    ∀ i, findWorldIdAux ws n i = none ↔ ∀ w ∈ ws, w.name ≠ n := by
  induction ws with
  | nil => intro i; simp [findWorldIdAux]
  | cons w rest ih =>
    intro i
    by_cases hw : w.name = n
    · simp [findWorldIdAux, hw]
    · simp [findWorldIdAux, hw, ih (i + 1)]

/-- A successful world-name scan returns the id of the first world with
the requested name, counting from the starting id. -/
theorem findWorldIdAux_some (ws : List World) (n : String) :
    ∀ i j, findWorldIdAux ws n i = some j →
      ∃ k, j = i + k ∧ ∃ w, ws[k]? = some w ∧ w.name = n
        ∧ ∀ m, m < k → ∀ wm, ws[m]? = some wm → wm.name ≠ n := by
  induction ws with
  | nil => intro i j h; simp [findWorldIdAux] at h
  | cons w rest ih =>
    intro i j h
    by_cases hw : w.name = n
    · rw [findWorldIdAux, if_pos hw] at h
      obtain rfl : i = j := (Option.some.injEq _ _).mp h
      exact ⟨0, by omega, w, by simp, hw, fun m hm => absurd hm (by omega)⟩
    · rw [findWorldIdAux, if_neg hw] at h
      obtain ⟨k, hk, w2, hget, hname, hfirst⟩ := ih (i + 1) j h
      refine ⟨k + 1, by omega, w2, by simpa using hget, hname, ?_⟩
      intro m hm wm hgm
      cases m with
      | zero =>
        obtain rfl : w = wm := by simpa using hgm
        exact hw
      | succ m2 => exact hfirst m2 (by omega) wm (by simpa using hgm)

/-- The `find_map` over the world arena, characterized: a returned id is the
first world whose name matches. -/
theorem findWorldId_some (r : Resolve) (n : String) (j : Nat)
    (h : findWorldId r n = some j) :
    ∃ w, r.worlds[j]? = some w ∧ w.name = n
      ∧ ∀ m, m < j → ∀ wm, r.worlds[m]? = some wm → wm.name ≠ n := by
  obtain ⟨k, hk, w, hget, hname, hfirst⟩ := findWorldIdAux_some r.worlds n 0 j h
  have hk2 : j = k := by omega
  subst hk2
  exact ⟨w, hget, hname, hfirst⟩

/-- C10: the package path errors exactly when no world in the resolved
graph has the supplied name; otherwise it extracts the first world with
that name via `from_world`, which succeeds with that world's resolved
exports and imports. -/
theorem package_extraction_requires_world_name (r : Resolve) (pid : Nat)
    (world_name : String) :
    ((∃ e, Component.from_raw_wit_package (.ok (.witPackage r pid)) world_name = .error e)
      ↔ ∀ w ∈ r.worlds, w.name ≠ world_name)
    ∧ (∀ i, findWorldId r world_name = some i →
        Component.from_raw_wit_package (.ok (.witPackage r pid)) world_name
          = Component.from_world r i
        ∧ ∃ w, r.worlds[i]? = some w ∧ w.name = world_name
            ∧ (∀ m, m < i → ∀ wm, r.worlds[m]? = some wm → wm.name ≠ world_name)
            ∧ Component.from_world r i
                = .ok { exports := w.exports.filterMap (name_from_key_and_item r),
                        imports := w.imports.filterMap (name_from_key_and_item r),
                        target := none }) := by
  constructor
  · constructor
    · rintro ⟨e, he⟩
      rcases hf : findWorldId r world_name with _ | i
      · exact (findWorldIdAux_none_iff r.worlds world_name 0).mp hf
      · obtain ⟨w, hget, hname, hfirst⟩ := findWorldId_some r world_name i hf
        rw [show Component.from_raw_wit_package (.ok (.witPackage r pid)) world_name
            = Component.from_world r i from by
          simp [Component.from_raw_wit_package, hf]] at he
        rw [show Component.from_world r i
            = .ok { exports := w.exports.filterMap (name_from_key_and_item r),
                    imports := w.imports.filterMap (name_from_key_and_item r),
                    target := none } from by
          simp [Component.from_world, hget]] at he
        exact absurd he (by simp)
    · intro hall
      have hf : findWorldId r world_name = none :=
        (findWorldIdAux_none_iff r.worlds world_name 0).mpr hall
      exact ⟨"Unable to find matching world for name " ++ world_name,
        by simp [Component.from_raw_wit_package, hf]⟩
  · intro i hf
    obtain ⟨w, hget, hname, hfirst⟩ := findWorldId_some r world_name i hf
    refine ⟨by simp [Component.from_raw_wit_package, hf], w, hget, hname, hfirst, ?_⟩
    simp [Component.from_world, hget]

/-- A package whose single world `proxy` exports one interface and
imports a plain-name capability — a package-shaped decode on which the
package extraction path returns non-empty imports. -/
def packageWorldResolve : Resolve :=
  { worlds := [{ name := "proxy",
                 exports := [WorldKey.interface 0],
                 imports := [WorldKey.name "custom-import"] }],
    interfaces := [{ name := some "incoming-handler", package := some 0 }],
    packages := [{ ns := "wasi", name := "http", version := some "0.2.0" }] }

/-- Witness for C10: on the concrete package, asking for a name no world
carries is an error, by the characterization theorem. -/
theorem package_extraction_requires_world_name_witness :
    ∃ e, Component.from_raw_wit_package
        (.ok (.witPackage packageWorldResolve 0)) "no-such-world" = .error e :=
  (package_extraction_requires_world_name packageWorldResolve 0 "no-such-world").1.mpr
    (by decide)

/-- Counterexample to C1: the crate's package extraction entry point is
keyed by a world name, not a package id, and on this package it returns
the `proxy` world's descriptor: its import set is non-empty (so imports
are not always empty) and no `wasi:http/proxy@0.2.0` pseudo-export for
the world was synthesized. -/
theorem package_extraction_not_whole_package :
    Component.from_raw_wit_package (.ok (.witPackage packageWorldResolve 0)) "proxy"
      = .ok { exports := ["wasi:http/incoming-handler@0.2.0"],
              imports := ["custom-import"],
              target := none }
    ∧ ({ exports := ["wasi:http/incoming-handler@0.2.0"],
         imports := ["custom-import"],
         target := none } : Component).imports ≠ []
    ∧ "wasi:http/proxy@0.2.0"
        ∉ ({ exports := ["wasi:http/incoming-handler@0.2.0"],
             imports := ["custom-import"],
             target := none } : Component).exports :=
  ⟨rfl, by simp, by decide⟩

/-- C1 as amended: the package entry point takes a caller-supplied world
name and returns exactly the named (first-matching) world's single-world
descriptor — that world's resolved export keys and resolved import keys,
with no synthesized pseudo-export and no emptiness guarantee on
imports. -/
theorem package_extraction_single_world (r : Resolve) (pid : Nat)
    (world_name : String) (i : Nat) (w : World)
    (hf : findWorldId r world_name = some i)
    (hw : r.worlds[i]? = some w) :
    Component.from_raw_wit_package (.ok (.witPackage r pid)) world_name
      = .ok { exports := w.exports.filterMap (name_from_key_and_item r),
              imports := w.imports.filterMap (name_from_key_and_item r),
              target := none } := by
  simp [Component.from_raw_wit_package, hf, Component.from_world, hw]

/-- Witness for the amended C1 on the concrete package: the `proxy`
world's descriptor, imports included. -/
theorem package_extraction_single_world_witness :
    Component.from_raw_wit_package (.ok (.witPackage packageWorldResolve 0)) "proxy"
      = .ok { exports := [WorldKey.interface 0].filterMap
                (name_from_key_and_item packageWorldResolve),
              imports := [WorldKey.name "custom-import"].filterMap
                (name_from_key_and_item packageWorldResolve),
              target := none } :=
  package_extraction_single_world packageWorldResolve 0 "proxy" 0
    { name := "proxy",
      exports := [WorldKey.interface 0],
      imports := [WorldKey.name "custom-import"] } rfl rfl

/-- C2: on the pull path that parses the config (`pull_manifest_and_config`),
an artifact without exactly one content layer, or with a manifest media
type other than the fixed WASM manifest constant, or with a config media
type other than the fixed WASM config constant, is an error whose value
does not depend on the config payload at all — the shape is rejected
before descriptor extraction is attempted; conversely a success implies
all three checks passed. -/
theorem artifact_shape_checked_before_extraction :
    (∀ (m : OciImageManifest) (digest : String) (blob : Json),
      (m.layers.length ≠ 1 ∨ m.media_type.getD "" ≠ WASM_MANIFEST_MEDIA_TYPE
        ∨ m.config.media_type ≠ WASM_MANIFEST_CONFIG_MEDIA_TYPE) →
      (∃ e, WasmClient.pull_manifest_and_config (.ok (m, digest, blob)) = .error e)
      ∧ ∀ blob₂, WasmClient.pull_manifest_and_config (.ok (m, digest, blob))
          = WasmClient.pull_manifest_and_config (.ok (m, digest, blob₂)))
    ∧ (∀ (m : OciImageManifest) (digest : String) (blob : Json) out,
      WasmClient.pull_manifest_and_config (.ok (m, digest, blob)) = .ok out →
      m.layers.length = 1 ∧ m.media_type.getD "" = WASM_MANIFEST_MEDIA_TYPE
        ∧ m.config.media_type = WASM_MANIFEST_CONFIG_MEDIA_TYPE) := by
  constructor
  · intro m digest blob hbad
    have hfixed : ∃ e, ∀ b : Json,
        WasmClient.pull_manifest_and_config (.ok (m, digest, b)) = .error e := by
      by_cases h1 : m.layers.length ≠ 1
      · exact ⟨_, fun b => by
          simp only [WasmClient.pull_manifest_and_config]
          rw [if_pos h1]⟩
      · by_cases h2 : m.media_type.getD "" ≠ WASM_MANIFEST_MEDIA_TYPE
        · exact ⟨_, fun b => by
            simp only [WasmClient.pull_manifest_and_config]
            rw [if_neg h1, if_pos h2]⟩
        · have h3 : m.config.media_type ≠ WASM_MANIFEST_CONFIG_MEDIA_TYPE := by
            tauto
          exact ⟨_, fun b => by
            simp only [WasmClient.pull_manifest_and_config]
            rw [if_neg h1, if_neg h2, if_pos h3]⟩
    obtain ⟨e, he⟩ := hfixed
    exact ⟨⟨e, he blob⟩, fun b₂ => (he blob).trans (he b₂).symm⟩
  · intro m digest blob out h
    simp only [WasmClient.pull_manifest_and_config] at h
    by_cases h1 : m.layers.length ≠ 1
    · rw [if_pos h1] at h
      exact Except.noConfusion h
    · rw [if_neg h1] at h
      by_cases h2 : m.media_type.getD "" ≠ WASM_MANIFEST_MEDIA_TYPE
      · rw [if_pos h2] at h
        exact Except.noConfusion h
      · rw [if_neg h2] at h
        by_cases h3 : m.config.media_type ≠ WASM_MANIFEST_CONFIG_MEDIA_TYPE
        · rw [if_pos h3] at h
          exact Except.noConfusion h
        · exact ⟨not_not.mp h1, not_not.mp h2, not_not.mp h3⟩

/-- A manifest with no content layer but correct media types. -/
def zeroLayerManifest : OciImageManifest :=
  { media_type := some WASM_MANIFEST_MEDIA_TYPE,
    config := { media_type := WASM_MANIFEST_CONFIG_MEDIA_TYPE },
    layers := [] }

/-- Witness for C2: a zero-layer artifact is rejected identically for two
different config payloads — the payload was never consulted. -/
theorem artifact_shape_checked_before_extraction_witness :
    WasmClient.pull_manifest_and_config (.ok (zeroLayerManifest, "sha", Json.null))
      = WasmClient.pull_manifest_and_config
          (.ok (zeroLayerManifest, "sha", Json.str "garbage")) :=
  (artifact_shape_checked_before_extraction.1 zeroLayerManifest "sha" Json.null
    (Or.inl (by decide))).2 (Json.str "garbage")

/-- The shape a trusted decoder guarantees for a plain-name key (spec §1,
§3): a bare name never contains the namespace separator, so it cannot
collide with a fully-qualified interface name. -/
def keyPlainNoColon : WorldKey → Prop
  | .name s => ':' ∉ s.data
  | .interface _ => True

instance : ∀ k, Decidable (keyPlainNoColon k)
  | .name s => inferInstanceAs (Decidable (':' ∉ s.data))
  | .interface _ => inferInstanceAs (Decidable True)

/-- Well-formedness of a decoded graph, as the spec assumes of trusted
decoder output (spec §1 non-goals, §3 invariants): distinct interface
nodes never share a fully-qualified name, each world's key maps have
distinct keys, and plain-name keys are bare names. -/
def WellFormed (r : Resolve) : Prop :=
  (∀ i ∈ List.range r.interfaces.length, ∀ j ∈ List.range r.interfaces.length,
    r.id_of i ≠ none → r.id_of i = r.id_of j → i = j)
  ∧ ∀ w ∈ r.worlds, w.exports.Nodup ∧ w.imports.Nodup
      ∧ (∀ k ∈ w.exports, keyPlainNoColon k) ∧ (∀ k ∈ w.imports, keyPlainNoColon k)

instance (r : Resolve) : Decidable (WellFormed r) := by
  unfold WellFormed
  infer_instance

/-- The `filterMap` of a duplicate-free list along a function injective on its
members (where defined) is duplicate-free. -/
theorem nodup_filterMap_of_injOn {α β : Type} (f : α → Option β) :
    ∀ l : List α, l.Nodup →
      (∀ a ∈ l, ∀ b ∈ l, ∀ c, f a = some c → f b = some c → a = b) →
      (l.filterMap f).Nodup := by
  intro l
  induction l with
  | nil => intro _ _; simp
  | cons a l ih =>
    intro hnd hinj
    obtain ⟨hna, hndl⟩ := List.nodup_cons.mp hnd
    have hinjl : ∀ x ∈ l, ∀ y ∈ l, ∀ c, f x = some c → f y = some c → x = y :=
      fun x hx y hy c hcx hcy =>
        hinj x (List.mem_cons_of_mem a hx) y (List.mem_cons_of_mem a hy) c hcx hcy
    rcases hfa : f a with _ | c
    · rw [show List.filterMap f (a :: l) = List.filterMap f l from by
        simp [List.filterMap_cons, hfa]]
      exact ih hndl hinjl
    · rw [show List.filterMap f (a :: l) = c :: List.filterMap f l from by
        simp [List.filterMap_cons, hfa]]
      refine List.nodup_cons.mpr ⟨?_, ih hndl hinjl⟩
      intro hc
      obtain ⟨b, hb, hfb⟩ := List.mem_filterMap.mp hc
      exact hna ((hinj a (List.mem_cons_self a l) b (List.mem_cons_of_mem a hb)
        c hfa hfb) ▸ hb)

/-- A resolving interface id indexes an existing interface node. -/
theorem id_of_some_lt (r : Resolve) (i : Nat) (s : String)
    (h : r.id_of i = some s) : i < r.interfaces.length := by
  by_contra hge
  have hnone : r.interfaces[i]? = none := List.getElem?_eq_none (by omega)
  simp [Resolve.id_of, hnone] at h

/-- On a well-formed graph, key resolution is injective across the keys
of one world map: distinct keys never produce the same canonical name. -/
theorem name_resolution_injOn (r : Resolve)
    (hinj : ∀ i ∈ List.range r.interfaces.length, ∀ j ∈ List.range r.interfaces.length,
      r.id_of i ≠ none → r.id_of i = r.id_of j → i = j)
    (ks : List WorldKey) (hk : ∀ k ∈ ks, keyPlainNoColon k) :
    ∀ a ∈ ks, ∀ b ∈ ks, ∀ s, name_from_key_and_item r a = some s →
      name_from_key_and_item r b = some s → a = b := by
  intro a ha b hb s hfa hfb
  match a, b with
  | .name x, .name y =>
    have hx : some x = some s := hfa
    have hy : some y = some s := hfb
    rw [(Option.some.injEq _ _).mp hx, (Option.some.injEq _ _).mp hy]
  | .interface i, .interface j =>
    have hia : r.id_of i = some s := hfa
    have hja : r.id_of j = some s := hfb
    have hi_lt := id_of_some_lt r i s hia
    have hj_lt := id_of_some_lt r j s hja
    rw [hinj i (List.mem_range.mpr hi_lt) j (List.mem_range.mpr hj_lt)
      (by rw [hia]; simp) (by rw [hia, hja])]
  | .name x, .interface j =>
    exfalso
    have hx : some x = some s := hfa
    have hnc : ':' ∉ x.data := hk _ ha
    rw [(Option.some.injEq _ _).mp hx] at hnc
    exact hnc (colon_mem_id_of r j s hfb)
  | .interface i, .name y =>
    exfalso
    have hy : some y = some s := hfb
    have hnc : ':' ∉ y.data := hk _ hb
    rw [(Option.some.injEq _ _).mp hy] at hnc
    exact hnc (colon_mem_id_of r i s hfa)

/-- C8: on a well-formed graph, the export and import lists of every
descriptor `from_world` produces are free of duplicates — the realized
sequences behave as sets. -/
theorem descriptor_lists_nodup (r : Resolve) (hwf : WellFormed r) (wid : Nat)
    (c : Component) (hc : Component.from_world r wid = .ok c) :
    c.exports.Nodup ∧ c.imports.Nodup := by
  rcases hg : r.worlds[wid]? with _ | w <;>
    simp only [Component.from_world, hg] at hc
  · exact Except.noConfusion hc
  obtain rfl := (Except.ok.injEq _ _).mp hc
  obtain ⟨hnd_exp, hnd_imp, hnc_exp, hnc_imp⟩ := hwf.2 w (List.getElem?_mem hg)
  exact ⟨nodup_filterMap_of_injOn _ _ hnd_exp
          (name_resolution_injOn r hwf.1 _ hnc_exp),
        nodup_filterMap_of_injOn _ _ hnd_imp
          (name_resolution_injOn r hwf.1 _ hnc_imp)⟩

/-- A small well-formed graph: one world exporting one interface
reference and one plain name, importing one plain name. -/
def wellFormedResolve : Resolve :=
  { worlds := [{ name := "w",
                 exports := [WorldKey.interface 0, WorldKey.name "plain"],
                 imports := [WorldKey.name "x"] }],
    interfaces := [{ name := some "iface", package := some 0 }],
    packages := [{ ns := "demo", name := "pkg", version := none }] }

/-- Witness for C8: the descriptor extracted from the well-formed example
graph has duplicate-free export and import lists. -/
theorem descriptor_lists_nodup_witness :
    (["demo:pkg/iface", "plain"] : List String).Nodup
      ∧ (["x"] : List String).Nodup :=
  descriptor_lists_nodup wellFormedResolve (by decide) 0
    { exports := ["demo:pkg/iface", "plain"], imports := ["x"], target := none } rfl

/-- Looking a key up at the head of an object. -/
theorem findField_cons_self (k : String) (v : Json) (fs : List (String × Json)) :
    Json.findField (.obj ((k, v) :: fs)) k = some v := by
  simp [Json.findField]

/-- Looking a key up past a non-matching head field. -/
theorem findField_cons_of_ne (k key : String) (h : k ≠ key) (v : Json)
    (fs : List (String × Json)) :
    Json.findField (.obj ((k, v) :: fs)) key = Json.findField (.obj fs) key := by
  simp [Json.findField, h]

/-- Deserializing a serialized string list returns it unchanged. -/
theorem strListFromJson_map (l : List String) :
    strListFromJson (l.map Json.str) = some l := by
  induction l with
  | nil => rfl
  | cons s rest ih => simp [strListFromJson, ih]

/-- Lists of strings (`Vec<String>` fields) round-trip. -/
theorem asStrArr_jsonOfStrList (l : List String) :
    Json.asStrArr (jsonOfStrList l) = some l := by
  simp [Json.asStrArr, jsonOfStrList, strListFromJson_map]

/-- Optional strings (`Option<String>` fields) round-trip. -/
theorem asOptStr_jsonOfOptStr (t : Option String) :
    Json.asOptStr (jsonOfOptStr t) = some t := by
  cases t <;> rfl

/-- The descriptor round-trips through its derived JSON form. -/
theorem component_fromJson_toJson (c : Component) :
    Component.fromJson c.toJson = some c := by
  obtain ⟨e, i, t⟩ := c
  simp [Component.toJson, Component.fromJson, Json.findField,
    asStrArr_jsonOfStrList, asOptStr_jsonOfOptStr]

/-- The optional descriptor field of the config round-trips. -/
theorem asOptComponent_jsonOfOptComponent (comp : Option Component) :
    Json.asOptComponent (jsonOfOptComponent comp) = some comp := by
  cases comp with
  | none => rfl
  | some c =>
    show (Component.fromJson (Component.toJson c)).map some = some (some c)
    rw [component_fromJson_toJson]
    rfl

/-- The whole config struct round-trips through its derived camelCase
JSON form. -/
theorem wasmConfig_fromJson_toJson (cfg : WasmConfig) :
    WasmConfig.fromJson cfg.toJson = some cfg := by
  obtain ⟨cr, au, ar, os, ld, co⟩ := cfg
  simp [WasmConfig.toJson, WasmConfig.fromJson, Json.findField, Json.asStr,
    asStrArr_jsonOfStrList, asOptStr_jsonOfOptStr, asOptComponent_jsonOfOptComponent]

/-- C9: serializing a config with `to_config` and parsing the persisted
payload back with `TryFrom` returns the config exactly — in particular
the descriptor's export and import sets are preserved — and the payload
is stamped with the fixed WASM config media type. -/
theorem config_roundtrip (cfg : WasmConfig) :
    ∃ blob, cfg.to_config = .ok blob
      ∧ blob.media_type = WASM_MANIFEST_CONFIG_MEDIA_TYPE
      ∧ WasmConfig.try_from blob.data = .ok cfg := by
  refine ⟨_, rfl, rfl, ?_⟩
  simp [WasmConfig.to_config, WasmConfig.try_from, wasmConfig_fromJson_toJson]
